import Mathlib

/-!
Verification of the cadence-calculation pipeline of the Cadence Calculator
(BLR/IAS/GDN node processors).  The definitions below are a shallow embedding
of `src/Processors/base_processor.py`, `src/Processors/ias_processor.py` and
`src/Processors/gdn_processor.py`:

* a spreadsheet cell holding a number is modelled by `NumCell`: the
  "not Found!" sentinel (together with the empty/nan/nat/none strings that
  `BaseProcessor.is_not_found` treats as the sentinel) is `NumCell.nf`, a
  non-sentinel string that `float()` cannot parse is `NumCell.bad`, and a
  numeric value is `NumCell.num q` with `q : ℚ`;
* a cell holding a date is modelled by `DateCell`: `DateCell.nf` is the
  sentinel, `DateCell.bad s` is a non-sentinel string that
  `pd.to_datetime(..., errors='coerce')` cannot parse, and `DateCell.date d`
  is a calendar date identified with its day ordinal `d : ℤ` (the
  `%Y-%m-%d` strings produced by `BaseProcessor.date_to_string` order exactly
  like the day ordinals they denote);
* machine floats of the Python code are modelled by `ℚ` (all values the
  pipeline compares are small integers or sums of spreadsheet numbers).
-/

inductive NumCell where
  | nf
  | bad
  | num (q : ℚ)
deriving DecidableEq

inductive DateCell where
  | nf
  | bad (s : String)
  | date (d : ℤ)
deriving DecidableEq

/-- Model of `BaseProcessor.safe_to_numeric` on one cell: the sentinel and unparseable
strings become NaN (here `none`), numbers pass through. -/
def parseNum : NumCell → Option ℚ
  | .num q => some q
  | _ => none

/-- Model of `BaseProcessor.is_not_found` on a numeric cell. -/
def numIsNF : NumCell → Bool
  | .nf => true
  | _ => false

/-- Model of `BaseProcessor.is_not_found` on a date cell. -/
def dateIsNF : DateCell → Bool
  | .nf => true
  | _ => false

/-- Python `int(float(q))`: truncation toward zero. -/
def pyInt (q : ℚ) : ℤ := if 0 ≤ q then ⌊q⌋ else -⌊-q⌋

/-- The `RISK_TO_CADENCE` dict lookup followed by `.fillna(30)`:
`{0:30, 1:30, 2:60, 3:90, 4:180, 5:365}`, default 30. -/
def riskToCadence (q : ℚ) : ℤ :=
  if q = 0 then 30
  else if q = 1 then 30
  else if q = 2 then 60
  else if q = 3 then 90
  else if q = 4 then 180
  else if q = 5 then 365
  else 30

/-- Model of `has_nc & (nc_numeric >= k)` of the pandas mask algebra: NaN compares
false, so the conjunction holds exactly when the value parsed and is `≥ k`. -/
def oge (x : Option ℚ) (k : ℚ) : Prop :=
  match x with
  | some v => k ≤ v
  | none => False

/-- Model of `has_nc & (nc_numeric < k)`: holds exactly when the value parsed and is
`< k`. -/
def olt (x : Option ℚ) (k : ℚ) : Prop :=
  match x with
  | some v => v < k
  | none => False

instance : ∀ (x : Option ℚ) (k : ℚ), Decidable (oge x k)
  | some v, k => inferInstanceAs (Decidable (k ≤ v))
  | none, _ => .isFalse id

instance : ∀ (x : Option ℚ) (k : ℚ), Decidable (olt x k)
  | some v, k => inferInstanceAs (Decidable (v < k))
  | none, _ => .isFalse id

/-- Model of `IASProcessor.update_cadence_score` and `GDNProcessor.update_cadence_score`
(lines 335–407 resp. 277–349; the two bodies are identical): the cascade of
`np.where` calls applied to one row.  `b` is the row's current Cadence Score,
`nc`, `pnc`, `pcad` are the `safe_to_numeric` parses of `NC Count`,
`Previous NC` and `Previous Cadence`, `risk` is the row's risk score.  Each
`let` mirrors one `np.where(mask, v, new_score)` line in source order, so a
later line overrides an earlier one exactly as in the code. -/
def updateCadenceScore (b : ℤ) (nc pnc pcad : Option ℚ) (risk : ℚ) : ℤ :=
  let s : ℤ := b
  let s := if pcad = some 30 ∧ oge nc 10 then 30 else s
  let s := if pcad = some 30 ∧ olt nc 10 ∧ oge pnc 10 then 30 else s
  let s := if pcad = some 30 ∧ nc = none ∧ oge pnc 10 then 30 else s
  let s := if pcad = some 30 ∧ olt nc 10 ∧ olt pnc 10 then 60 else s
  let s := if pcad = some 30 ∧ olt nc 10 ∧ pnc = none then 60 else s
  let s := if pcad = some 60 ∧ oge nc 10 then 30 else s
  let s := if pcad = some 60 ∧ olt nc 10 ∧ oge pnc 10 then 60 else s
  let s := if pcad = some 60 ∧ nc = none ∧ oge pnc 10 then 60 else s
  let s := if pcad = some 60 ∧ olt nc 10 ∧ olt pnc 10 then 90 else s
  let s := if pcad = some 60 ∧ olt nc 10 ∧ pnc = none then 90 else s
  let s := if pcad = some 90 ∧ oge nc 10 then 60 else s
  let s := if pcad = some 90 ∧ olt nc 10 ∧ oge pnc 10 then 90 else s
  let s := if pcad = some 90 ∧ nc = none ∧ oge pnc 10 then 90 else s
  let s := if pcad = some 90 ∧ olt nc 10 ∧ olt pnc 10 ∧ (risk = 1 ∨ risk = 2 ∨ risk = 3)
    then 90 else s
  let s := if pcad = some 90 ∧ olt nc 10 ∧ olt pnc 10 ∧ (risk = 4 ∨ risk = 5)
    then 180 else s
  let s := if pcad = some 90 ∧ olt nc 10 ∧ pnc = none ∧ (risk = 1 ∨ risk = 2 ∨ risk = 3)
    then 90 else s
  let s := if pcad = some 90 ∧ olt nc 10 ∧ pnc = none ∧ (risk = 4 ∨ risk = 5)
    then 180 else s
  let s := if pcad = some 180 ∧ oge nc 15 then 90 else s
  let s := if pcad = some 180 ∧ olt nc 15 ∧ oge pnc 15 then 180 else s
  let s := if pcad = some 180 ∧ nc = none ∧ oge pnc 15 then 180 else s
  let s := if pcad = some 180 ∧ olt nc 15 ∧ olt pnc 15 ∧ risk = 4 then 180 else s
  let s := if pcad = some 180 ∧ olt nc 15 ∧ olt pnc 15 ∧ risk ≠ 4 then 365 else s
  let s := if pcad = some 180 ∧ olt nc 15 ∧ pnc = none ∧ risk = 4 then 180 else s
  let s := if pcad = some 180 ∧ olt nc 15 ∧ pnc = none ∧ risk ≠ 4 then 365 else s
  let s := if pcad = some 365 ∧ oge nc 15 then 180 else s
  let s := if pcad = some 365 ∧ olt nc 15 ∧ oge pnc 15 then 365 else s
  let s := if pcad = some 365 ∧ nc = none ∧ oge pnc 15 then 365 else s
  let s := if pcad = some 365 ∧ olt nc 15 ∧ olt pnc 15 then 365 else s
  let s := if pcad = some 365 ∧ olt nc 15 ∧ pnc = none then 365 else s
  s

/-- The day-offset selection of `calculate_due_dates` (ias lines 430–454,
gdn lines 372–404): four sequential range blocks, each an `if/elif` ladder
that overwrites `days` when it matches and keeps the previous value
otherwise. -/
def dueDays (nc : ℚ) (cad : ℤ) : Option ℤ :=
  let d : Option ℤ := none
  let d := if nc < 10 then
      (if cad = 30 then some 30 else if cad = 60 then some 60
       else if cad = 90 then some 90 else d) else d
  let d := if nc < 15 then
      (if cad = 180 then some 180 else if cad = 365 then some 365 else d) else d
  let d := if 10 ≤ nc then
      (if cad = 30 then some 30 else if cad = 60 then some 30
       else if cad = 90 then some 60 else d) else d
  let d := if 15 ≤ nc then
      (if cad = 180 then some 90 else if cad = 365 then some 180 else d) else d
  d

/-- Model of `BaseProcessor.add_days_to_date`: the sentinel stays the sentinel, an
unparseable string coerces to NaT and becomes the sentinel, a date moves
forward by `days`. -/
def addDaysToDate (dc : DateCell) (days : ℤ) : DateCell :=
  match dc with
  | .nf => .nf
  | .bad _ => .nf
  | .date d => .date (d + days)

/-- Model of `BaseProcessor.date_to_string` on a cell already normalized to a
sentinel / string / date: the sentinel stays, a non-sentinel string is
returned unchanged, a date is formatted (same date). -/
def dateToString (dc : DateCell) : DateCell :=
  match dc with
  | .nf => .nf
  | .bad s => .bad s
  | .date d => .date d

/-- One row of the Cadence table with the fields the score-transition and
due-date stages read and write. -/
structure CadRow where
  risk : ℚ
  score : ℤ
  ncCount : NumCell
  resolved : DateCell
  prevCad : NumCell
  prevDue : DateCell
  prevNC : NumCell
  due : DateCell
deriving DecidableEq

/-- The per-row effect of `update_cadence_score`. -/
def updateScoreRow (r : CadRow) : CadRow :=
  { r with
    score := updateCadenceScore r.score (parseNum r.ncCount) (parseNum r.prevNC)
      (parseNum r.prevCad) r.risk }

/-- The per-row due-date computation of `calculate_due_dates` (ias lines
420–461, gdn lines 362–411): sentinel when NC does not parse or the resolved
date is the sentinel, otherwise resolved date plus the selected offset,
sentinel when no offset matches. -/
def calcDueRow (r : CadRow) : CadRow :=
  { r with due :=
      (parseNum r.ncCount).elim DateCell.nf (fun q =>
        if dateIsNF r.resolved then DateCell.nf
        else (dueDays q r.score).elim DateCell.nf (addDaysToDate r.resolved)) }

/-- The fallback loop of `calculate_due_dates` (ias lines 465–475, gdn lines
415–425): when `NC Count` is the sentinel, the Cadence Score is overwritten
with `int(float(Previous Cadence))` when that parses, and the Due Date with
the Previous Due Date when that is not the sentinel. -/
def fallbackRow (r : CadRow) : CadRow :=
  if numIsNF r.ncCount then
    let r1 := (parseNum r.prevCad).elim r (fun q => { r with score := pyInt q })
    if dateIsNF r1.prevDue then r1 else { r1 with due := r1.prevDue }
  else r

/-- Model of `finalize_cadence` (ias lines 480–497, gdn lines 430–439): risk score 0
is remapped to 1, the Cadence Score column is already numeric, the Due Date
is re-normalized through `date_to_string`. -/
def finalizeRow (r : CadRow) : CadRow :=
  { r with
      risk := if r.risk = 0 then 1 else r.risk
      due := dateToString r.due }

/-- The row-level composition of the four stages that run between cadence
creation and the final output. -/
def pipelineRow (r : CadRow) : CadRow :=
  finalizeRow (fallbackRow (calcDueRow (updateScoreRow r)))

/-! ## Table-level model

`create_cadence` and `apply_master_lookups` populate the row fields from
deduplicated lookups keyed by the node key.  Below, the ARMT and Master
lookups are arbitrary functions from keys to the cells a hit returns (a miss
is `none`, which the code turns into the sentinel), and the normalized
Outflow table is a list of rows each carrying the node key, the parsed
resolved date (`none` when `pd.to_datetime` produced NaT, in which case
`date_to_string` yields the sentinel string) and the numeric `NC` value
(`quantity + vendor_id`, always a number after the zero-fill coercions). -/

structure OutRow where
  key : String
  resolved : Option ℤ
  nc : ℚ
deriving DecidableEq

structure ArmtInfo where
  parentScore : NumCell
deriving DecidableEq

structure MasterInfo where
  cadScore : NumCell
  dueDate : DateCell
  ncCount : NumCell
deriving DecidableEq

/-- The `Resolved Date` cell of a node key: `date_to_string` of the first
outflow row with that key held by the deduplicated lookup, sentinel on a
miss. -/
def outRowResolvedCell (r : OutRow) : DateCell :=
  r.resolved.elim DateCell.nf DateCell.date

def resolvedCellOf (outflow : List OutRow) (k : String) : DateCell :=
  ((outflow.find? (fun r => r.key == k)).map outRowResolvedCell).getD DateCell.nf

/-- The `NC Count` cell of a node key: the groupby sum of `NC` over the
key's outflow rows, sentinel when the key has no outflow row. -/
def ncCellOf (outflow : List OutRow) (k : String) : NumCell :=
  let rs := outflow.filter (fun r => r.key == k)
  if rs.isEmpty then .nf else .num ((rs.map OutRow.nc).sum)

/-- The row's risk score: `parent_score` looked up from ARMT with
`.fillna(1)`, then `safe_to_numeric(...).fillna(1)`. -/
def riskOf (armtL : String → Option ArmtInfo) (k : String) : ℚ :=
  ((armtL k).map (fun a => (parseNum a.parentScore).getD 1)).getD 1

/-- The `Previous Cadence` cell from the master lookup: sentinel on a miss
or a NaN cell, `str(int(x))` of a numeric cell (so the integer truncation of
the value, which reparses to exactly that integer), the unchanged string on
anything else. -/
def numCellToPrevCad : NumCell → NumCell
  | .nf => .nf
  | .bad => .bad
  | .num q => .num ((pyInt q : ℤ) : ℚ)

def prevCadCellOf (masterL : String → Option MasterInfo) (k : String) : NumCell :=
  ((masterL k).map (fun m => numCellToPrevCad m.cadScore)).getD NumCell.nf

/-- The `Previous Due Date` cell: `date_to_string` of the master's Due Date,
sentinel on a miss. -/
def prevDueCellOf (masterL : String → Option MasterInfo) (k : String) : DateCell :=
  ((masterL k).map (fun m => dateToString m.dueDate)).getD DateCell.nf

/-- The `Previous NC` cell: sentinel on a miss or NaN, `str(x)` otherwise
(which reparses to the same value). -/
def prevNCCellOf (masterL : String → Option MasterInfo) (k : String) : NumCell :=
  ((masterL k).map MasterInfo.ncCount).getD NumCell.nf

/-- One Cadence row as produced by `create_cadence` +
`apply_master_lookups` for node key `k`: lookups populate the cells, the
risk→cadence table assigns the initial Cadence Score, the Due Date column is
initialized to the sentinel. -/
def buildRow (armtL : String → Option ArmtInfo) (masterL : String → Option MasterInfo)
    (outflow : List OutRow) (k : String) : CadRow :=
  let risk := riskOf armtL k
  { risk := risk
    score := riskToCadence risk
    ncCount := ncCellOf outflow k
    resolved := resolvedCellOf outflow k
    prevCad := prevCadCellOf masterL k
    prevDue := prevDueCellOf masterL k
    prevNC := prevNCCellOf masterL k
    due := .nf }

/-- The finalized Cadence table of a run: one fully processed row per
enumerated node key. -/
def makeCadence (nodes : List String) (armtL : String → Option ArmtInfo)
    (masterL : String → Option MasterInfo) (outflow : List OutRow) : List CadRow :=
  nodes.map (fun k => pipelineRow (buildRow armtL masterL outflow k))

/-- Cadence scores the spec's domain invariant names. -/
def isTier (s : ℤ) : Prop := s = 30 ∨ s = 60 ∨ s = 90 ∨ s = 180 ∨ s = 365

/-! ## Outflow sorting and deduplication (GDN `process_outflow` lines
145–151 / IAS lines 132–134, and the deduplicated lookups of
`create_cadence`).

The code stringifies the parsed resolved date with `date_to_string`
(ISO `%Y-%m-%d`, or the literal `'not Found!'` when the parse produced NaT),
sorts descending on that string column, and later deduplicates by key
keeping the first row.  ISO date strings compare exactly like the dates, and
the sentinel string (starting with `'n'`) compares greater than every digit
string, so in a descending sort the sentinel ranks above every date.
`resGe x y` states that the stringified cell `x` sorts at or before `y` in
the descending order. -/

def resGe (x y : Option ℤ) : Prop :=
  match x, y with
  | none, _ => True
  | some _, none => False
  | some a, some b => b ≤ a

instance : ∀ x y : Option ℤ, Decidable (resGe x y)
  | none, _ => .isTrue trivial
  | some _, none => .isFalse id
  | some a, some b => inferInstanceAs (Decidable (b ≤ a))

/-- The descending sort order on outflow rows. -/
def rowGe (x y : OutRow) : Prop := resGe x.resolved y.resolved

instance : DecidableRel rowGe := fun x y =>
  inferInstanceAs (Decidable (resGe x.resolved y.resolved))

instance : IsTotal OutRow rowGe :=
  ⟨fun x y => by
    obtain ⟨kx, rx, nx⟩ := x
    obtain ⟨ky, ry, ny⟩ := y
    rcases rx with _ | a <;> rcases ry with _ | b
    · exact Or.inl trivial
    · exact Or.inl trivial
    · exact Or.inr trivial
    · exact le_total b a⟩

instance : IsTrans OutRow rowGe :=
  ⟨fun x y z hxy hyz => by
    obtain ⟨kx, rx, nx⟩ := x
    obtain ⟨ky, ry, ny⟩ := y
    obtain ⟨kz, rz, nz⟩ := z
    rcases rx with _ | a <;> rcases ry with _ | b <;> rcases rz with _ | c <;>
      first
        | exact trivial
        | exact hxy.elim
        | exact hyz.elim
        | exact le_trans hyz hxy⟩

/-- Model of the descending sort on the stringified resolved-date column. -/
def sortOutflow (l : List OutRow) : List OutRow := List.insertionSort rowGe l

/-- The resolved-date cell the deduplicated lookup records for key `k`:
the resolved date of the first row with that key in the sorted table
(`none` at the outer level when the key has no row at all, `some none` when
the retained row's own resolved date is the sentinel). -/
def recordedResolved (l : List OutRow) (k : String) : Option (Option ℤ) :=
  ((sortOutflow l).find? (fun r => r.key == k)).map OutRow.resolved

/-! ## Python string primitives

Executable models of the Python string operations the node enumeration and
the sentinel test use: `str.split(',')`, `str.strip()` and `str.lower()`.
Strings are processed through their character lists. -/

/-- Whitespace for `str.strip()` (the pipeline's cells only ever carry the
ASCII whitespace listed here). -/
def isWsChar (c : Char) : Bool :=
  c == ' ' || c == '\t' || c == '\n' || c == '\r'

/-- Python `str.strip()` on a character list. -/
def trimChars (l : List Char) : List Char :=
  ((l.dropWhile isWsChar).reverse.dropWhile isWsChar).reverse

/-- ASCII `str.lower()` on one character. -/
def pyLowerChar (c : Char) : Char :=
  if 'A' ≤ c ∧ c ≤ 'Z' then Char.ofNat (c.toNat + 32) else c

/-- Python `str.split(',')` on a character list; the split of an empty list is a singleton empty chunk, as in Python. -/
def splitCommaChars : List Char → List (List Char)
  | [] => [[]]
  | c :: cs =>
    if c == ',' then [] :: splitCommaChars cs
    else
      match splitCommaChars cs with
      | [] => [[c]]
      | h :: t => (c :: h) :: t

/-- Python `str.split(',')`. -/
def pySplitComma (s : String) : List String :=
  (splitCommaChars s.data).map (fun l => ⟨l⟩)

/-- Python `str.strip()`. -/
def pyStrip (s : String) : String := ⟨trimChars s.data⟩

/-- Python `str.lower()`. -/
def pyLower (s : String) : String := ⟨s.data.map pyLowerChar⟩

/-! ## GDN node enumeration (`GDNProcessor.create_nodes`, lines 173–198,
with the lists from `__init__` lines 33–38). -/

def GDN_Core : List String := ["DE", "ANY", "Any"]

def GDN_Cross : List String := ["DE", "TR", "UK", "Any"]

def GDN_Excluded_Sources : List String :=
  ["JP", "FR", "IT", "ES", "CN", "US", "AU", "SG", "AE", "IN",
   "SA", "CA", "NL", "EG", "MX", "UK"]

/-- One row of the grouped ARMT table `create_nodes` iterates over. -/
structure ArmtNRow where
  childClass : String
  program : String
  source : String
  destination : String
deriving DecidableEq

/-- The loop body of `GDNProcessor.create_nodes` for one row: the first
inner loop adds the row's `child_class` when any comma-split source element
strips to a member of `GDN_Core` (the code does not test `program` here);
the second matches `program == 'CrossListing'` and adds the `child_class`
when some destination element strips into `GDN_Cross` while some source
element strips outside `GDN_Excluded_Sources`. -/
def gdnRowAdds (r : ArmtNRow) : Bool :=
  ((pySplitComma r.source).any (fun j => GDN_Core.contains (pyStrip j))) ||
  (r.program == "CrossListing" &&
    ((pySplitComma r.destination).any (fun k =>
      (pySplitComma r.source).any (fun t =>
        GDN_Cross.contains (pyStrip k) &&
          !(GDN_Excluded_Sources.contains (pyStrip t))))))

/-- Membership of a `child_class` value in the node set built by
`GDNProcessor.create_nodes`. -/
def gdnNodeMem (rows : List ArmtNRow) (c : String) : Bool :=
  rows.any (fun r => r.childClass == c && gdnRowAdds r)

/-! ## JSR flag and the primary/secondary column merge
(`create_cadence` JSR assignment, ias lines 254–255 / gdn lines 242–243,
and `IASProcessor.merge_columns`, lines 308–333). -/

/-- Leading-match check on character lists. -/
def listHasPre (pat l : List Char) : Bool :=
  match pat, l with
  | [], _ => true
  | _ :: _, [] => false
  | p :: ps, c :: cs => p == c && listHasPre ps cs

/-- Substring search on character lists. -/
def listHasSub (pat l : List Char) : Bool :=
  match l with
  | [] => pat.isEmpty
  | _ :: cs => listHasPre pat l || listHasSub pat cs

/-- Model of `Series.str.contains(pat, regex=True)` for the alternation-free literal
patterns used here: substring containment, case-sensitive. -/
def strHasSub (s pat : String) : Bool := listHasSub pat.toList s.toList

/-- The JSR column assignment of `create_cadence`: `'Yes'` iff the (primary)
`Policies` value matches `'_JSR|-JSR'`. -/
def jsrOf (policies : String) : String :=
  if strHasSub policies "_JSR" || strHasSub policies "-JSR" then "Yes" else "No"

/-- Model of `BaseProcessor.is_not_found` on a string value. -/
def isNotFoundStr (s : String) : Bool :=
  let t := pyLower (pyStrip s)
  t == "not found!" || t == "not found" || t == "nan" || t == "nat" ||
    t == "none" || t == ""

/-- One pass of `IASProcessor.merge_columns` on a primary/secondary column
pair: the secondary value replaces the primary wherever the primary is the
sentinel. -/
def mergeCell (p p2 : String) : String := if isNotFoundStr p then p2 else p

/-- The `Policies`/`JSR` fields of one finalized row. -/
structure JsrRow where
  policies : String
  jsr : String
deriving DecidableEq

/-- The finalized `Policies` and `JSR` of a row whose primary policy cell is
`p` and secondary policy cell is `p2`: the JSR flag is computed in
`create_cadence` from the primary cell, then `merge_columns` rewrites the
`Policies` column (but not `JSR`). -/
def cadenceJsrRow (p p2 : String) : JsrRow :=
  { policies := mergeCell p p2, jsr := jsrOf p }

/-! ## Helper lemmas -/

theorem pyInt_intCast (n : ℤ) : pyInt ((n : ℤ) : ℚ) = n := by
  unfold pyInt
  split_ifs with h
  · exact_mod_cast Int.floor_intCast n
  · rw [show -((n : ℤ) : ℚ) = ((-n : ℤ) : ℚ) by push_cast; ring]
    rw [Int.floor_intCast]
    ring

theorem dateToString_eq (dc : DateCell) : dateToString dc = dc := by
  cases dc <;> rfl

instance : ∀ s : ℤ, Decidable (isTier s) := fun s => by
  unfold isTier
  infer_instance

/-- Evaluation of `update_cadence_score` at previous tier 30, rewritten as the nested
conditional the `np.where` chain denotes (a later mask wins, so the last
line of the source block is the outermost test). -/
theorem updEq30 (b : ℤ) (nc pnc : Option ℚ) (risk : ℚ) :
    updateCadenceScore b nc pnc (some 30) risk =
      if olt nc 10 ∧ pnc = none then 60
      else if olt nc 10 ∧ olt pnc 10 then 60
      else if nc = none ∧ oge pnc 10 then 30
      else if olt nc 10 ∧ oge pnc 10 then 30
      else if oge nc 10 then 30
      else b := by
  unfold updateCadenceScore
  norm_num

/-- Evaluation of `update_cadence_score` at previous tier 60. -/
theorem updEq60 (b : ℤ) (nc pnc : Option ℚ) (risk : ℚ) :
    updateCadenceScore b nc pnc (some 60) risk =
      if olt nc 10 ∧ pnc = none then 90
      else if olt nc 10 ∧ olt pnc 10 then 90
      else if nc = none ∧ oge pnc 10 then 60
      else if olt nc 10 ∧ oge pnc 10 then 60
      else if oge nc 10 then 30
      else b := by
  unfold updateCadenceScore
  norm_num

/-- Evaluation of `update_cadence_score` at previous tier 90. -/
theorem updEq90 (b : ℤ) (nc pnc : Option ℚ) (risk : ℚ) :
    updateCadenceScore b nc pnc (some 90) risk =
      if olt nc 10 ∧ pnc = none ∧ (risk = 4 ∨ risk = 5) then 180
      else if olt nc 10 ∧ pnc = none ∧ (risk = 1 ∨ risk = 2 ∨ risk = 3) then 90
      else if olt nc 10 ∧ olt pnc 10 ∧ (risk = 4 ∨ risk = 5) then 180
      else if olt nc 10 ∧ olt pnc 10 ∧ (risk = 1 ∨ risk = 2 ∨ risk = 3) then 90
      else if nc = none ∧ oge pnc 10 then 90
      else if olt nc 10 ∧ oge pnc 10 then 90
      else if oge nc 10 then 60
      else b := by
  unfold updateCadenceScore
  norm_num

/-- Evaluation of `update_cadence_score` at previous tier 180. -/
theorem updEq180 (b : ℤ) (nc pnc : Option ℚ) (risk : ℚ) :
    updateCadenceScore b nc pnc (some 180) risk =
      if olt nc 15 ∧ pnc = none ∧ ¬(risk = 4) then 365
      else if olt nc 15 ∧ pnc = none ∧ risk = 4 then 180
      else if olt nc 15 ∧ olt pnc 15 ∧ ¬(risk = 4) then 365
      else if olt nc 15 ∧ olt pnc 15 ∧ risk = 4 then 180
      else if nc = none ∧ oge pnc 15 then 180
      else if olt nc 15 ∧ oge pnc 15 then 180
      else if oge nc 15 then 90
      else b := by
  unfold updateCadenceScore
  norm_num

/-- Evaluation of `update_cadence_score` at previous tier 365. -/
theorem updEq365 (b : ℤ) (nc pnc : Option ℚ) (risk : ℚ) :
    updateCadenceScore b nc pnc (some 365) risk =
      if olt nc 15 ∧ pnc = none then 365
      else if olt nc 15 ∧ olt pnc 15 then 365
      else if nc = none ∧ oge pnc 15 then 365
      else if olt nc 15 ∧ oge pnc 15 then 365
      else if oge nc 15 then 180
      else b := by
  unfold updateCadenceScore
  norm_num

/-- Evaluation of `update_cadence_score` with no previous cadence: no mask fires. -/
theorem updEqNone (b : ℤ) (nc pnc : Option ℚ) (risk : ℚ) :
    updateCadenceScore b nc pnc none risk = b := by
  unfold updateCadenceScore
  simp

/-- Evaluation of `update_cadence_score` with a previous cadence outside the five tiers:
no mask fires. -/
theorem updEqOther (b : ℤ) (nc pnc : Option ℚ) (t risk : ℚ)
    (h30 : t ≠ 30) (h60 : t ≠ 60) (h90 : t ≠ 90) (h180 : t ≠ 180) (h365 : t ≠ 365) :
    updateCadenceScore b nc pnc (some t) risk = b := by
  unfold updateCadenceScore
  norm_num [h30, h60, h90, h180, h365]

theorem riskToCadence_isTier (q : ℚ) : isTier (riskToCadence q) := by
  unfold riskToCadence isTier
  split_ifs <;> simp

/-- The score-transition stage only ever writes a tier value or keeps the
row's current score. -/
theorem updateCadenceScore_mem (b : ℤ) (nc pnc pcad : Option ℚ) (risk : ℚ) :
    updateCadenceScore b nc pnc pcad risk = b ∨
      isTier (updateCadenceScore b nc pnc pcad risk) := by
  rcases pcad with _ | t
  · rw [updEqNone]
    exact Or.inl rfl
  · by_cases h30 : t = 30
    · subst h30
      rw [updEq30]
      unfold isTier
      split_ifs <;> simp
    · by_cases h60 : t = 60
      · subst h60
        rw [updEq60]
        unfold isTier
        split_ifs <;> simp
      · by_cases h90 : t = 90
        · subst h90
          rw [updEq90]
          unfold isTier
          split_ifs <;> simp
        · by_cases h180 : t = 180
          · subst h180
            rw [updEq180]
            unfold isTier
            split_ifs <;> simp
          · by_cases h365 : t = 365
            · subst h365
              rw [updEq365]
              unfold isTier
              split_ifs <;> simp
            · rw [updEqOther b nc pnc t risk h30 h60 h90 h180 h365]
              exact Or.inl rfl

/-! ## Stage projection lemmas -/

theorem updateScoreRow_ncCount (r : CadRow) : (updateScoreRow r).ncCount = r.ncCount := rfl

theorem updateScoreRow_prevCad (r : CadRow) : (updateScoreRow r).prevCad = r.prevCad := rfl

theorem updateScoreRow_prevDue (r : CadRow) : (updateScoreRow r).prevDue = r.prevDue := rfl

theorem updateScoreRow_risk (r : CadRow) : (updateScoreRow r).risk = r.risk := rfl

theorem updateScoreRow_resolved (r : CadRow) : (updateScoreRow r).resolved = r.resolved := rfl

theorem calcDueRow_ncCount (r : CadRow) : (calcDueRow r).ncCount = r.ncCount := rfl

theorem calcDueRow_prevCad (r : CadRow) : (calcDueRow r).prevCad = r.prevCad := rfl

theorem calcDueRow_prevDue (r : CadRow) : (calcDueRow r).prevDue = r.prevDue := rfl

theorem calcDueRow_risk (r : CadRow) : (calcDueRow r).risk = r.risk := rfl

theorem calcDueRow_score (r : CadRow) : (calcDueRow r).score = r.score := rfl

theorem calcDueRow_resolved (r : CadRow) : (calcDueRow r).resolved = r.resolved := rfl

theorem calcDueRow_due (r : CadRow) :
    (calcDueRow r).due =
      (parseNum r.ncCount).elim DateCell.nf (fun q =>
        if dateIsNF r.resolved then DateCell.nf
        else (dueDays q r.score).elim DateCell.nf (addDaysToDate r.resolved)) := rfl

theorem finalizeRow_score (r : CadRow) : (finalizeRow r).score = r.score := rfl

theorem finalizeRow_resolved (r : CadRow) : (finalizeRow r).resolved = r.resolved := rfl

theorem finalizeRow_due (r : CadRow) : (finalizeRow r).due = dateToString r.due := rfl

theorem finalizeRow_risk (r : CadRow) :
    (finalizeRow r).risk = if r.risk = 0 then 1 else r.risk := rfl

theorem fallbackRow_risk (r : CadRow) : (fallbackRow r).risk = r.risk := by
  unfold fallbackRow
  by_cases h1 : numIsNF r.ncCount
  · rw [if_pos h1]
    rcases hpc : parseNum r.prevCad with _ | q <;> simp only [hpc] <;> split_ifs <;> rfl
  · rw [if_neg h1]

theorem fallbackRow_resolved (r : CadRow) : (fallbackRow r).resolved = r.resolved := by
  unfold fallbackRow
  by_cases h1 : numIsNF r.ncCount
  · rw [if_pos h1]
    rcases hpc : parseNum r.prevCad with _ | q <;> simp only [hpc] <;> split_ifs <;> rfl
  · rw [if_neg h1]

theorem fallbackRow_nonf (r : CadRow) (h1 : numIsNF r.ncCount = false) :
    fallbackRow r = r := by
  unfold fallbackRow
  rw [h1]
  simp

theorem fallbackRow_score_of_parse (r : CadRow) (q : ℚ)
    (h1 : numIsNF r.ncCount = true) (h2 : parseNum r.prevCad = some q) :
    (fallbackRow r).score = pyInt q := by
  unfold fallbackRow
  rw [if_pos h1]
  simp only [h2]
  split_ifs <;> rfl

theorem fallbackRow_score_of_noparse (r : CadRow) (h2 : parseNum r.prevCad = none) :
    (fallbackRow r).score = r.score := by
  unfold fallbackRow
  by_cases h1 : numIsNF r.ncCount
  · rw [if_pos h1]
    simp only [h2]
    split_ifs <;> rfl
  · rw [if_neg h1]

theorem buildRow_prevCad (armtL : String → Option ArmtInfo)
    (masterL : String → Option MasterInfo) (outflow : List OutRow) (k : String) :
    (buildRow armtL masterL outflow k).prevCad = prevCadCellOf masterL k := rfl

theorem buildRow_ncCount (armtL : String → Option ArmtInfo)
    (masterL : String → Option MasterInfo) (outflow : List OutRow) (k : String) :
    (buildRow armtL masterL outflow k).ncCount = ncCellOf outflow k := rfl

theorem buildRow_risk (armtL : String → Option ArmtInfo)
    (masterL : String → Option MasterInfo) (outflow : List OutRow) (k : String) :
    (buildRow armtL masterL outflow k).risk = riskOf armtL k := rfl

theorem buildRow_score (armtL : String → Option ArmtInfo)
    (masterL : String → Option MasterInfo) (outflow : List OutRow) (k : String) :
    (buildRow armtL masterL outflow k).score = riskToCadence (riskOf armtL k) := rfl

theorem buildRow_resolved (armtL : String → Option ArmtInfo)
    (masterL : String → Option MasterInfo) (outflow : List OutRow) (k : String) :
    (buildRow armtL masterL outflow k).resolved = resolvedCellOf outflow k := rfl

theorem pipelineRow_resolved (r : CadRow) : (pipelineRow r).resolved = r.resolved := by
  unfold pipelineRow
  rw [finalizeRow_resolved, fallbackRow_resolved, calcDueRow_resolved, updateScoreRow_resolved]

theorem updateScoreRow_score_mem (r : CadRow) (h : isTier r.score) :
    isTier (updateScoreRow r).score := by
  rcases updateCadenceScore_mem r.score (parseNum r.ncCount) (parseNum r.prevNC)
      (parseNum r.prevCad) r.risk with hb | ht
  · show isTier (updateCadenceScore _ _ _ _ _)
    rw [hb]
    exact h
  · exact ht

/-! ## Claim C1: score transition with current NC known -/

/-- The spec's score-transition rule table as the claim states it, for a row
whose current NC parsed: at tier `T` with threshold `K` (10 for 30/60/90, 15
for 180/365), `NC ≥ K` demotes one tier; `NC < K` with previous NC known and
`≥ K` holds; otherwise the row promotes — one tier up at 30/60, risk-scoped
at 90 (risk 1-3 holds at 90, risk 4-5 goes to 180) and at 180 (risk 4 holds,
any other risk goes to 365), and 365 stays at 365.  `none` where the claim's
table assigns no value (tier 90 promotion with a risk outside 1-5, or a
previous cadence outside the five tiers). -/
def specScoreRuleC1 (T nc : ℚ) (pnc : Option ℚ) (risk : ℚ) : Option ℤ :=
  if T = 30 then
    if 10 ≤ nc then some 30
    else if oge pnc 10 then some 30
    else some 60
  else if T = 60 then
    if 10 ≤ nc then some 30
    else if oge pnc 10 then some 60
    else some 90
  else if T = 90 then
    if 10 ≤ nc then some 60
    else if oge pnc 10 then some 90
    else if risk = 1 ∨ risk = 2 ∨ risk = 3 then some 90
    else if risk = 4 ∨ risk = 5 then some 180
    else none
  else if T = 180 then
    if 15 ≤ nc then some 90
    else if oge pnc 15 then some 180
    else if risk = 4 then some 180
    else some 365
  else if T = 365 then
    if 15 ≤ nc then some 180
    else if oge pnc 15 then some 365
    else some 365
  else none

/-- C1 (confirmed): for every row whose Previous Cadence parses to a tier
`T ∈ {30, 60, 90, 180, 365}` and whose current NC Count parses to `nc`, the
score written by `update_cadence_score` equals the value the spec's rule
table (`specScoreRuleC1`) assigns, whatever the row's incoming Cadence Score
`b`, previous NC and risk score, wherever the table assigns a value. -/
theorem c1_score_transition_matches_rule_table (b : ℤ) (T nc : ℚ)
    (pnc : Option ℚ) (risk : ℚ) (s : ℤ)
    (h : specScoreRuleC1 T nc pnc risk = some s) :
    updateCadenceScore b (some nc) pnc (some T) risk = s := by
  unfold specScoreRuleC1 at h
  by_cases t30 : T = 30
  · rw [if_pos t30] at h
    subst t30
    rw [updEq30]
    by_cases hnc : 10 ≤ nc
    · rw [if_pos hnc] at h
      injection h with hs
      subst hs
      (simp only [olt, oge]; norm_num [hnc, not_lt.mpr hnc]) <;> simp
    · rw [if_neg hnc] at h
      have hlt : nc < 10 := not_le.mp hnc
      by_cases hp : oge pnc 10
      · rw [if_pos hp] at h
        injection h with hs
        subst hs
        rcases pnc with _ | p
        · exact absurd hp (by simp [oge])
        · have hple : (10 : ℚ) ≤ p := hp
          (simp only [olt, oge]; norm_num [hlt, hple, not_lt.mpr hple]) <;> simp
      · rw [if_neg hp] at h
        injection h with hs
        subst hs
        rcases pnc with _ | p
        · (simp only [olt, oge]; norm_num [hlt]) <;> simp
        · have hplt : p < 10 := not_le.mp (fun hh => hp hh)
          (simp only [olt, oge]; norm_num [hlt, hplt, not_le.mpr hplt]) <;> simp
  · rw [if_neg t30] at h
    by_cases t60 : T = 60
    · rw [if_pos t60] at h
      subst t60
      rw [updEq60]
      by_cases hnc : 10 ≤ nc
      · rw [if_pos hnc] at h
        injection h with hs
        subst hs
        (simp only [olt, oge]; norm_num [hnc, not_lt.mpr hnc]) <;> simp
      · rw [if_neg hnc] at h
        have hlt : nc < 10 := not_le.mp hnc
        by_cases hp : oge pnc 10
        · rw [if_pos hp] at h
          injection h with hs
          subst hs
          rcases pnc with _ | p
          · exact absurd hp (by simp [oge])
          · have hple : (10 : ℚ) ≤ p := hp
            (simp only [olt, oge]; norm_num [hlt, hple, not_lt.mpr hple]) <;> simp
        · rw [if_neg hp] at h
          injection h with hs
          subst hs
          rcases pnc with _ | p
          · (simp only [olt, oge]; norm_num [hlt]) <;> simp
          · have hplt : p < 10 := not_le.mp (fun hh => hp hh)
            (simp only [olt, oge]; norm_num [hlt, hplt, not_le.mpr hplt]) <;> simp
    · rw [if_neg t60] at h
      by_cases t90 : T = 90
      · rw [if_pos t90] at h
        subst t90
        rw [updEq90]
        by_cases hnc : 10 ≤ nc
        · rw [if_pos hnc] at h
          injection h with hs
          subst hs
          (simp only [olt, oge]; norm_num [hnc, not_lt.mpr hnc]) <;> simp
        · rw [if_neg hnc] at h
          have hlt : nc < 10 := not_le.mp hnc
          by_cases hp : oge pnc 10
          · rw [if_pos hp] at h
            injection h with hs
            subst hs
            rcases pnc with _ | p
            · exact absurd hp (by simp [oge])
            · have hple : (10 : ℚ) ≤ p := hp
              (simp only [olt, oge]; norm_num [hlt, hple, not_lt.mpr hple]) <;> simp
          · rw [if_neg hp] at h
            by_cases hr123 : risk = 1 ∨ risk = 2 ∨ risk = 3
            · rw [if_pos hr123] at h
              injection h with hs
              subst hs
              rcases pnc with _ | p
              · rcases hr123 with hr | hr | hr <;> subst hr <;>
                  (simp only [olt, oge]; norm_num [hlt]) <;> simp
              · have hplt : p < 10 := not_le.mp (fun hh => hp hh)
                rcases hr123 with hr | hr | hr <;> subst hr <;>
                  (simp only [olt, oge]; norm_num [hlt, hplt, not_le.mpr hplt]) <;> simp
            · rw [if_neg hr123] at h
              by_cases hr45 : risk = 4 ∨ risk = 5
              · rw [if_pos hr45] at h
                injection h with hs
                subst hs
                rcases pnc with _ | p
                · rcases hr45 with hr | hr <;> subst hr <;>
                    (simp only [olt, oge]; norm_num [hlt]) <;> simp
                · have hplt : p < 10 := not_le.mp (fun hh => hp hh)
                  rcases hr45 with hr | hr <;> subst hr <;>
                    (simp only [olt, oge]; norm_num [hlt, hplt, not_le.mpr hplt]) <;> simp
              · rw [if_neg hr45] at h
                exact Option.noConfusion h
      · rw [if_neg t90] at h
        by_cases t180 : T = 180
        · rw [if_pos t180] at h
          subst t180
          rw [updEq180]
          by_cases hnc : 15 ≤ nc
          · rw [if_pos hnc] at h
            injection h with hs
            subst hs
            (simp only [olt, oge]; norm_num [hnc, not_lt.mpr hnc]) <;> simp
          · rw [if_neg hnc] at h
            have hlt : nc < 15 := not_le.mp hnc
            by_cases hp : oge pnc 15
            · rw [if_pos hp] at h
              injection h with hs
              subst hs
              rcases pnc with _ | p
              · exact absurd hp (by simp [oge])
              · have hple : (15 : ℚ) ≤ p := hp
                (simp only [olt, oge]; norm_num [hlt, hple, not_lt.mpr hple]) <;> simp
            · rw [if_neg hp] at h
              by_cases hr4 : risk = 4
              · rw [if_pos hr4] at h
                injection h with hs
                subst hs
                subst hr4
                rcases pnc with _ | p
                · (simp only [olt, oge]; norm_num [hlt]) <;> simp
                · have hplt : p < 15 := not_le.mp (fun hh => hp hh)
                  (simp only [olt, oge]; norm_num [hlt, hplt, not_le.mpr hplt]) <;> simp
              · rw [if_neg hr4] at h
                injection h with hs
                subst hs
                rcases pnc with _ | p
                · (simp only [olt, oge]; norm_num [hlt, hr4]) <;> simp
                · have hplt : p < 15 := not_le.mp (fun hh => hp hh)
                  (simp only [olt, oge]; norm_num [hlt, hplt, not_le.mpr hplt, hr4]) <;> simp
        · rw [if_neg t180] at h
          by_cases t365 : T = 365
          · rw [if_pos t365] at h
            subst t365
            rw [updEq365]
            by_cases hnc : 15 ≤ nc
            · rw [if_pos hnc] at h
              injection h with hs
              subst hs
              (simp only [olt, oge]; norm_num [hnc, not_lt.mpr hnc]) <;> simp
            · rw [if_neg hnc] at h
              have hlt : nc < 15 := not_le.mp hnc
              by_cases hp : oge pnc 15
              · rw [if_pos hp] at h
                injection h with hs
                subst hs
                rcases pnc with _ | p
                · exact absurd hp (by simp [oge])
                · have hple : (15 : ℚ) ≤ p := hp
                  (simp only [olt, oge]; norm_num [hlt, hple, not_lt.mpr hple]) <;> simp
              · rw [if_neg hp] at h
                injection h with hs
                subst hs
                rcases pnc with _ | p
                · (simp only [olt, oge]; norm_num [hlt]) <;> simp
                · have hplt : p < 15 := not_le.mp (fun hh => hp hh)
                  (simp only [olt, oge]; norm_num [hlt, hplt, not_le.mpr hplt]) <;> simp
          · rw [if_neg t365] at h
            exact Option.noConfusion h

/-- Witness for C1 at tier 90, NC = 3, previous NC = 2, risk 5: the rule
table promotes to 180 and the code agrees (the spec's own §8 example). -/
theorem c1_score_transition_witness :
    specScoreRuleC1 90 3 (some 2) 5 = some 180 ∧
      updateCadenceScore 365 (some 3) (some 2) (some 90) 5 = 180 :=
  ⟨by decide, c1_score_transition_matches_rule_table 365 90 3 (some 2) 5 180 (by decide)⟩

/-! ## Claim C2: score transition with current NC absent -/

def armtC2 : String → Option ArmtInfo := fun _ => some ⟨NumCell.num 5⟩

def masterC2 : String → Option MasterInfo :=
  fun _ => some ⟨NumCell.num 30, DateCell.nf, NumCell.num 5⟩

/-- Counterexample to C2 as stated: a run over one node key whose ARMT risk
score is 5, whose master row carries Previous Cadence 30 and Previous NC 5,
and whose key has no outflow row (current NC is the sentinel).  The claim
predicts promotion to the tier above 30 (score 60, since previous NC is
known and below the threshold); the code leaves the transition stage at the
risk baseline and then the fallback overwrites the score with the previous
cadence 30 — the final score is 30, not 60. -/
theorem c2_absent_nc_counterexample :
    (makeCadence ["k"] armtC2 masterC2 []).map CadRow.score = [30] ∧
      (makeCadence ["k"] armtC2 masterC2 []).map CadRow.score ≠ [60] := by
  decide

/-- C2 (amended): when the current NC Count is the sentinel and Previous
Cadence parses to a tier `T`, the score that leaves the due-date stage (and
hence the final output) is `T` itself, in every case — the held tier when
previous NC ≥ K via the transition rule, and otherwise via the fallback
carry-forward; no promotion to the tier above `T` ever happens on such
rows. -/
theorem c2_absent_nc_carries_previous_tier (r : CadRow) (T : ℤ)
    (hT : T = 30 ∨ T = 60 ∨ T = 90 ∨ T = 180 ∨ T = 365)
    (hnc : r.ncCount = NumCell.nf)
    (hpc : r.prevCad = NumCell.num ((T : ℤ) : ℚ)) :
    (pipelineRow r).score = T := by
  simp [pipelineRow, finalizeRow, fallbackRow, calcDueRow, updateScoreRow,
    hnc, hpc, parseNum, numIsNF, pyInt_intCast]
  split_ifs <;> simp [pyInt_intCast]

/-- Witness for C2's amended statement at tier 60. -/
theorem c2_absent_nc_carries_witness :
    (pipelineRow
        { risk := 1, score := 30, ncCount := NumCell.nf, resolved := DateCell.nf,
          prevCad := NumCell.num 60, prevDue := DateCell.nf, prevNC := NumCell.nf,
          due := DateCell.nf }).score = 60 :=
  c2_absent_nc_carries_previous_tier _ 60 (by norm_num) rfl rfl

/-! ## Claim C3: due-date offsets -/

/-- The spec's due-date offset table as the claim states it: independent NC
ranges (`< 10`, `10 ≤ NC < 15`, `≥ 15`) each assigning a day offset per
cadence score, none when the score is outside the five tiers. -/
def specDueOffsetC3 (nc : ℚ) (cad : ℤ) : Option ℤ :=
  if nc < 10 then
    if cad = 30 then some 30
    else if cad = 60 then some 60
    else if cad = 90 then some 90
    else if cad = 180 then some 180
    else if cad = 365 then some 365
    else none
  else if nc < 15 then
    if cad = 30 then some 30
    else if cad = 60 then some 30
    else if cad = 90 then some 60
    else if cad = 180 then some 180
    else if cad = 365 then some 365
    else none
  else
    if cad = 30 then some 30
    else if cad = 60 then some 30
    else if cad = 90 then some 60
    else if cad = 180 then some 90
    else if cad = 365 then some 180
    else none

/-- The sequential `if`-block day-offset selection of `calculate_due_dates`
computes exactly the claim's range table. -/
theorem dueDays_eq_spec (q : ℚ) (cad : ℤ) : dueDays q cad = specDueOffsetC3 q cad := by
  unfold dueDays specDueOffsetC3
  by_cases h10 : q < 10 <;> by_cases h15 : q < 15
  · simp only [h10, h15, not_le.mpr h10, not_le.mpr h15, if_true, if_false]
    split_ifs <;> first | rfl | omega
  · exact absurd (lt_of_lt_of_le h10 (by norm_num)) h15
  · have hge : (10 : ℚ) ≤ q := not_lt.mp h10
    simp only [h10, h15, hge, not_lt.mpr hge, not_le.mpr h15, if_true, if_false] <;>
      try (split_ifs <;> first | rfl | omega)
  · have hge10 : (10 : ℚ) ≤ q := not_lt.mp h10
    have hge15 : (15 : ℚ) ≤ q := not_lt.mp h15
    simp only [h10, h15, hge10, hge15, if_true, if_false] <;>
      try (split_ifs <;> first | rfl | omega)

/-- C3 (confirmed): the Due Date written by the due-date calculation is the
resolved date moved forward by the offset of the claim's table when NC
parses and a resolved date is present, and the sentinel when NC does not
parse, the resolved date is the sentinel, or the cadence score is outside
the table.  (The pipeline's Resolved Date cell is always a
`date_to_string` result, hence never an unparseable string — the
hypothesis.) -/
theorem c3_due_date_offsets (r : CadRow) (hres : ∀ s, r.resolved ≠ DateCell.bad s) :
    (calcDueRow r).due =
      match parseNum r.ncCount, r.resolved with
      | some q, DateCell.date d =>
        (match specDueOffsetC3 q r.score with
         | some off => DateCell.date (d + off)
         | none => DateCell.nf)
      | _, _ => DateCell.nf := by
  rw [calcDueRow_due]
  rcases hnc : parseNum r.ncCount with _ | q
  · simp
  · rcases hrd : r.resolved with _ | s | d
    · simp [dateIsNF]
    · exact absurd hrd (hres s)
    · simp only [dateIsNF, Option.elim_some]
      rw [dueDays_eq_spec]
      rcases hoff : specDueOffsetC3 q r.score with _ | off <;>
        simp [hoff, addDaysToDate]

/-- Witness for C3: NC = 12, score 90, resolved day 0 → due day 60. -/
theorem c3_due_date_offsets_witness :
    (calcDueRow
        { risk := 3, score := 90, ncCount := NumCell.num 12,
          resolved := DateCell.date 0, prevCad := NumCell.nf, prevDue := DateCell.nf,
          prevNC := NumCell.nf, due := DateCell.nf }).due = DateCell.date 60 :=
  (c3_due_date_offsets _ (fun _ h => DateCell.noConfusion h)).trans (by decide)

/-! ## Claim C4: fallback carry-forward -/

theorem fallbackRow_due_of_prevDue (r : CadRow) (h1 : numIsNF r.ncCount = true)
    (h2 : dateIsNF r.prevDue = false) : (fallbackRow r).due = r.prevDue := by
  unfold fallbackRow
  rw [if_pos h1]
  rcases hpc : parseNum r.prevCad with _ | q <;>
    simp only [hpc, Option.elim_none, Option.elim_some] <;>
    rw [if_neg (by simp [h2])]

/-- C4 (confirmed): on a row whose current NC Count is the sentinel, the two
fallback overwrites act independently, mirroring the code's two separate
`if` blocks: the final Cadence Score is the parsed numeric value of Previous
Cadence (Python `int(float(...))`) whenever that parses, whatever the
Previous Due Date cell holds; and the final Due Date is the Previous Due
Date whenever that is not the sentinel, whether or not Previous Cadence
parses. -/
theorem c4_fallback_carry_forward (r : CadRow)
    (hnc : r.ncCount = NumCell.nf) :
    (∀ q : ℚ, parseNum r.prevCad = some q → (pipelineRow r).score = pyInt q) ∧
      (dateIsNF r.prevDue = false → (pipelineRow r).due = r.prevDue) := by
  constructor
  · intro q hq
    show (finalizeRow _).score = _
    rw [finalizeRow_score]
    apply fallbackRow_score_of_parse
    · rw [calcDueRow_ncCount, updateScoreRow_ncCount, hnc]
      rfl
    · rw [calcDueRow_prevCad, updateScoreRow_prevCad]
      exact hq
  · intro hpd
    show (finalizeRow _).due = _
    rw [finalizeRow_due]
    have hdue : (fallbackRow (calcDueRow (updateScoreRow r))).due = r.prevDue := by
      have := fallbackRow_due_of_prevDue (calcDueRow (updateScoreRow r))
        (by rw [calcDueRow_ncCount, updateScoreRow_ncCount, hnc]; rfl)
        (by rw [calcDueRow_prevDue, updateScoreRow_prevDue]; exact hpd)
      rw [calcDueRow_prevDue, updateScoreRow_prevDue] at this
      exact this
    rw [hdue, dateToString_eq]

/-- Witness for C4, exercising both independent overwrites: the claim's own
example row (Previous Cadence "60", Previous Due Date 2024-03-15, day
ordinal 19797 since 1970-01-01) gets score 60 and the carried-forward due
date; a second row with Previous Due Date = sentinel but Previous Cadence
"90" still gets its score overwritten to 90; a third row with an
unparseable Previous Cadence but Previous Due Date present still gets its
due date carried forward. -/
theorem c4_fallback_carry_forward_witness :
    ((pipelineRow
          { risk := 1, score := 30, ncCount := NumCell.nf, resolved := DateCell.nf,
            prevCad := NumCell.num 60, prevDue := DateCell.date 19797,
            prevNC := NumCell.nf, due := DateCell.nf }).score = 60 ∧
      (pipelineRow
          { risk := 1, score := 30, ncCount := NumCell.nf, resolved := DateCell.nf,
            prevCad := NumCell.num 60, prevDue := DateCell.date 19797,
            prevNC := NumCell.nf, due := DateCell.nf }).due = DateCell.date 19797) ∧
      (pipelineRow
          { risk := 1, score := 30, ncCount := NumCell.nf, resolved := DateCell.nf,
            prevCad := NumCell.num 90, prevDue := DateCell.nf,
            prevNC := NumCell.nf, due := DateCell.nf }).score = 90 ∧
      (pipelineRow
          { risk := 1, score := 30, ncCount := NumCell.nf, resolved := DateCell.nf,
            prevCad := NumCell.bad, prevDue := DateCell.date 19797,
            prevNC := NumCell.nf, due := DateCell.nf }).due = DateCell.date 19797 := by
  have h1 := c4_fallback_carry_forward
    { risk := 1, score := 30, ncCount := NumCell.nf, resolved := DateCell.nf,
      prevCad := NumCell.num 60, prevDue := DateCell.date 19797,
      prevNC := NumCell.nf, due := DateCell.nf } rfl
  have h2 := c4_fallback_carry_forward
    { risk := 1, score := 30, ncCount := NumCell.nf, resolved := DateCell.nf,
      prevCad := NumCell.num 90, prevDue := DateCell.nf,
      prevNC := NumCell.nf, due := DateCell.nf } rfl
  have h3 := c4_fallback_carry_forward
    { risk := 1, score := 30, ncCount := NumCell.nf, resolved := DateCell.nf,
      prevCad := NumCell.bad, prevDue := DateCell.date 19797,
      prevNC := NumCell.nf, due := DateCell.nf } rfl
  exact ⟨⟨(h1.1 60 rfl).trans (by decide), h1.2 rfl⟩,
    (h2.1 90 rfl).trans (by decide), h3.2 rfl⟩

/-! ## Claim C5: score and risk domain invariant -/

theorem prevCad_parse_shape (masterL : String → Option MasterInfo) (k : String) (q : ℚ)
    (h : parseNum (prevCadCellOf masterL k) = some q) :
    ∃ m q0, masterL k = some m ∧ m.cadScore = NumCell.num q0 ∧ q = ((pyInt q0 : ℤ) : ℚ) := by
  unfold prevCadCellOf at h
  rcases hml : masterL k with _ | m
  · rw [hml] at h
    exact Option.noConfusion h
  · rw [hml] at h
    simp only [Option.map_some', Option.getD_some] at h
    rcases hcs : m.cadScore with _ | _ | q0 <;> rw [hcs] at h
    · exact Option.noConfusion h
    · exact Option.noConfusion h
    · exact ⟨m, q0, rfl, hcs, (Option.some.inj h).symm⟩

def armtC5 : String → Option ArmtInfo := fun _ => some ⟨NumCell.num (-3)⟩

def masterC5 : String → Option MasterInfo :=
  fun _ => some ⟨NumCell.num 42, DateCell.nf, NumCell.num 0⟩

/-- Counterexample to C5 as stated: a run over one node key whose ARMT
parent_score is -3 (a number the pipeline accepts unchanged) and whose
master row carries Cadence Score 42 with no outflow rows.  The fallback
copies 42 into the final Cadence Score (outside {30, 60, 90, 180, 365}) and
the finalize stage only remaps risk 0, so the final risk score is -3 < 1 —
the invariant fails on both parts. -/
theorem c5_domain_invariant_counterexample :
    ¬ (∀ r ∈ makeCadence ["k"] armtC5 masterC5 [], isTier r.score ∧ 1 ≤ r.risk) := by
  decide

/-- C5 (amended): the invariant holds for every row of a finalized run
provided the inputs are themselves in range — every master Cadence Score
that parses truncates into {30, 60, 90, 180, 365}, and every ARMT
parent_score that parses is 0 or at least 1. -/
theorem c5_domain_invariant_amended (nodes : List String)
    (armtL : String → Option ArmtInfo) (masterL : String → Option MasterInfo)
    (outflow : List OutRow)
    (hm : ∀ k m q, masterL k = some m → m.cadScore = NumCell.num q → isTier (pyInt q))
    (ha : ∀ k a q, armtL k = some a → a.parentScore = NumCell.num q → q = 0 ∨ 1 ≤ q) :
    ∀ r ∈ makeCadence nodes armtL masterL outflow, isTier r.score ∧ 1 ≤ r.risk := by
  intro r hr
  simp only [makeCadence, List.mem_map] at hr
  obtain ⟨k, hk, rfl⟩ := hr
  unfold pipelineRow
  constructor
  · rw [finalizeRow_score]
    have hupd : isTier (calcDueRow (updateScoreRow (buildRow armtL masterL outflow k))).score := by
      rw [calcDueRow_score]
      exact updateScoreRow_score_mem _ (by rw [buildRow_score]; exact riskToCadence_isTier _)
    rcases hpc : parseNum (calcDueRow (updateScoreRow (buildRow armtL masterL outflow k))).prevCad
      with _ | q
    · rw [fallbackRow_score_of_noparse _ hpc]
      exact hupd
    · by_cases hnf : numIsNF (calcDueRow (updateScoreRow (buildRow armtL masterL outflow k))).ncCount
      · rw [fallbackRow_score_of_parse _ q hnf hpc]
        rw [calcDueRow_prevCad, updateScoreRow_prevCad, buildRow_prevCad] at hpc
        obtain ⟨m, q0, hml, hcs, rfl⟩ := prevCad_parse_shape masterL k q hpc
        rw [pyInt_intCast]
        exact hm k m q0 hml hcs
      · rw [fallbackRow_nonf _ (by simpa using hnf)]
        exact hupd
  · rw [finalizeRow_risk, fallbackRow_risk, calcDueRow_risk, updateScoreRow_risk, buildRow_risk]
    have hcases : riskOf armtL k = 0 ∨ 1 ≤ riskOf armtL k := by
      unfold riskOf
      rcases hal : armtL k with _ | a
      · simp
      · simp only [Option.map_some', Option.getD_some]
        rcases hps : a.parentScore with _ | _ | q
        · norm_num [parseNum]
        · norm_num [parseNum]
        · simp only [parseNum, Option.getD_some]
          exact ha k a q hal hps
    rcases hcases with h | h
    · rw [if_pos h]
    · rw [if_neg (by linarith)]
      exact h

def armtW5 : String → Option ArmtInfo := fun _ => some ⟨NumCell.num 2⟩

def masterW5 : String → Option MasterInfo :=
  fun _ => some ⟨NumCell.num 60, DateCell.nf, NumCell.nf⟩

/-- Witness for C5's amended statement: a one-key run with parent_score 2
and a master Cadence Score of 60 satisfies both input conditions, and the
invariant for its single row follows from the theorem. -/
theorem c5_domain_invariant_witness :
    isTier (pipelineRow (buildRow armtW5 masterW5 [] "k")).score ∧
      1 ≤ (pipelineRow (buildRow armtW5 masterW5 [] "k")).risk :=
  c5_domain_invariant_amended ["k"] armtW5 masterW5 []
    (fun _ m q hm hq => by
      rw [Option.some.inj hm.symm] at hq
      simp only at hq
      rw [← NumCell.num.inj hq]
      decide)
    (fun _ a q ha hq => by
      rw [Option.some.inj ha.symm] at hq
      simp only at hq
      rw [← NumCell.num.inj hq]
      norm_num)
    (pipelineRow (buildRow armtW5 masterW5 [] "k")) (List.mem_singleton.mpr rfl)

/-! ## Claim C6: due-date ordering invariant -/

theorem dueDays_nonneg (q : ℚ) (cad ds : ℤ) (h : dueDays q cad = some ds) : 0 ≤ ds := by
  unfold dueDays at h
  split_ifs at h <;> first
    | exact Option.noConfusion h
    | (injection h with h; omega)

/-- C6 (confirmed): for every row of a finalized run whose Resolved Date is
a date and whose Due Date is not the sentinel, the Due Date is a date no
earlier than the Resolved Date.  The only rows the fallback can overwrite
with a previous due date have no outflow rows at all (NC and resolved date
both sentinel), so they fall outside the quantifier. -/
theorem c6_due_date_ordering (nodes : List String) (armtL : String → Option ArmtInfo)
    (masterL : String → Option MasterInfo) (outflow : List OutRow) :
    ∀ r ∈ makeCadence nodes armtL masterL outflow, ∀ db : ℤ,
      r.resolved = DateCell.date db → r.due ≠ DateCell.nf →
      ∃ da : ℤ, r.due = DateCell.date da ∧ db ≤ da := by
  intro r hr db hres hdue
  simp only [makeCadence, List.mem_map] at hr
  obtain ⟨k, hk, rfl⟩ := hr
  rw [pipelineRow_resolved, buildRow_resolved] at hres
  -- the key has an outflow row, so its NC cell is numeric
  obtain ⟨row, hfind, hrowres⟩ :
      ∃ row, outflow.find? (fun r => r.key == k) = some row ∧
        outRowResolvedCell row = DateCell.date db := by
    unfold resolvedCellOf at hres
    rcases hf : outflow.find? (fun r => r.key == k) with _ | row
    · rw [hf] at hres
      simp only [Option.map_none', Option.getD_none] at hres
      exact DateCell.noConfusion hres
    · rw [hf] at hres
      simp only [Option.map_some', Option.getD_some] at hres
      exact ⟨row, hf, hres⟩
  obtain ⟨S, hS⟩ : ∃ S, ncCellOf outflow k = NumCell.num S := by
    unfold ncCellOf
    have hrowmem : row ∈ outflow := List.mem_of_find?_eq_some hfind
    have hrowkey := List.find?_some hfind
    have hmemf : row ∈ outflow.filter (fun r => r.key == k) :=
      List.mem_filter.mpr ⟨hrowmem, hrowkey⟩
    rw [if_neg (by simpa [List.isEmpty_iff] using List.ne_nil_of_mem hmemf)]
    exact ⟨_, rfl⟩
  have hncCell : (buildRow armtL masterL outflow k).ncCount = NumCell.num S := by
    rw [buildRow_ncCount]
    exact hS
  -- the fallback does not fire
  have hfb : fallbackRow (calcDueRow (updateScoreRow (buildRow armtL masterL outflow k)))
      = calcDueRow (updateScoreRow (buildRow armtL masterL outflow k)) := by
    apply fallbackRow_nonf
    rw [calcDueRow_ncCount, updateScoreRow_ncCount, hncCell]
    rfl
  -- compute the due cell
  have hresolved : (updateScoreRow (buildRow armtL masterL outflow k)).resolved
      = DateCell.date db := by
    rw [updateScoreRow_resolved, buildRow_resolved]
    exact hres
  have hdueval : (pipelineRow (buildRow armtL masterL outflow k)).due
      = dateToString ((dueDays S (updateScoreRow (buildRow armtL masterL outflow k)).score).elim
          DateCell.nf (addDaysToDate (DateCell.date db))) := by
    show (finalizeRow _).due = _
    rw [finalizeRow_due, hfb, calcDueRow_due, updateScoreRow_ncCount, hncCell]
    simp only [parseNum, Option.elim_some, hresolved]
    rw [if_neg (by simp [dateIsNF])]
  rcases hdd : dueDays S (updateScoreRow (buildRow armtL masterL outflow k)).score with _ | ds
  · rw [hdd] at hdueval
    simp only [Option.elim_none] at hdueval
    exact absurd hdueval hdue
  · rw [hdd] at hdueval
    simp only [Option.elim_some, addDaysToDate] at hdueval
    refine ⟨db + ds, by simpa [dateToString] using hdueval, ?_⟩
    have := dueDays_nonneg S _ ds hdd
    omega

def armtC6 : String → Option ArmtInfo := fun _ => none

def masterC6 : String → Option MasterInfo := fun _ => none

def outflowC6 : List OutRow := [⟨"k", some 100, 5⟩]

/-- The C6 witness row, written out: risk defaults to 1, the baseline score
is 30, the single outflow row gives NC 5 and resolved day 100. -/
def rowC6 : CadRow :=
  { risk := 1, score := 30, ncCount := NumCell.num 5, resolved := DateCell.date 100,
    prevCad := NumCell.nf, prevDue := DateCell.nf, prevNC := NumCell.nf,
    due := DateCell.nf }

theorem buildRow_c6_eq : buildRow armtC6 masterC6 outflowC6 "k" = rowC6 := by
  unfold buildRow armtC6 masterC6 outflowC6 rowC6 riskOf resolvedCellOf ncCellOf
    prevCadCellOf prevDueCellOf prevNCCellOf outRowResolvedCell riskToCadence
  norm_num [List.find?, List.filter, List.sum_cons, List.sum_nil]

/-- Witness for C6: one outflow row resolved on day 100 with NC 5; the
finalized row's due date is a day at or after day 100. -/
theorem c6_due_date_ordering_witness :
    ∃ da : ℤ,
      (pipelineRow (buildRow armtC6 masterC6 outflowC6 "k")).due = DateCell.date da ∧
        (100 : ℤ) ≤ da :=
  c6_due_date_ordering ["k"] armtC6 masterC6 outflowC6
    (pipelineRow (buildRow armtC6 masterC6 outflowC6 "k"))
    (List.mem_singleton.mpr rfl) 100
    (by rw [buildRow_c6_eq]; decide)
    (by rw [buildRow_c6_eq]; decide)

/-! ## Claim C7: most-recent resolution per key -/

theorem find_eq_filter_head {α : Type} (p : α → Bool) (l : List α) :
    l.find? p = (l.filter p).head? := by
  induction l with
  | nil => rfl
  | cons a t ih =>
    by_cases h : p a
    · rw [List.find?_cons_of_pos _ h, List.filter_cons_of_pos h]
      rfl
    · rw [List.find?_cons_of_neg _ (by simpa using h), List.filter_cons_of_neg (by simpa using h)]
      exact ih

/-- C7 (amended): when every outflow row of key `k` carries a parseable
resolved date, the resolved date the sorted-then-deduplicated lookup records
for `k` is the most recent resolved date among `k`'s rows.  (When some row
of the key lacks a date, the sentinel string sorts above every date in the
descending order and is recorded instead — see the counterexample.) -/
theorem c7_most_recent_resolution_amended (l : List OutRow) (k : String)
    (hex : ∃ r ∈ l, r.key = k)
    (hall : ∀ r ∈ l, r.key = k → r.resolved.isSome) :
    ∃ d : ℤ, recordedResolved l k = some (some d) ∧
      (∃ r ∈ l, r.key = k ∧ r.resolved = some d) ∧
      (∀ r ∈ l, r.key = k → ∀ e : ℤ, r.resolved = some e → e ≤ d) := by
  have hperm : List.Perm (sortOutflow l) l := List.perm_insertionSort rowGe l
  have hsorted : List.Sorted rowGe (sortOutflow l) := List.sorted_insertionSort rowGe l
  obtain ⟨r0, hr0l, hr0k⟩ := hex
  have hr0f : r0 ∈ (sortOutflow l).filter (fun r => r.key == k) :=
    List.mem_filter.mpr ⟨hperm.mem_iff.mpr hr0l, by simp [hr0k]⟩
  rcases hhead : (sortOutflow l).filter (fun r => r.key == k) with _ | ⟨w, rest⟩
  · rw [hhead] at hr0f
    exact absurd hr0f (List.not_mem_nil r0)
  have hw_f : w ∈ (sortOutflow l).filter (fun r => r.key == k) := by
    rw [hhead]
    exact List.mem_cons_self w rest
  have hw_l : w ∈ l := hperm.mem_iff.mp (List.mem_filter.mp hw_f).1
  have hw_k : w.key = k := by simpa using (List.mem_filter.mp hw_f).2
  obtain ⟨d, hd⟩ : ∃ d, w.resolved = some d :=
    Option.isSome_iff_exists.mp (hall w hw_l hw_k)
  refine ⟨d, ?_, ⟨w, hw_l, hw_k, hd⟩, ?_⟩
  · unfold recordedResolved
    rw [find_eq_filter_head, hhead]
    simp [hd]
  · intro r hrl hrk e hre
    have hr_f : r ∈ (sortOutflow l).filter (fun r => r.key == k) :=
      List.mem_filter.mpr ⟨hperm.mem_iff.mpr hrl, by simp [hrk]⟩
    rw [hhead] at hr_f
    rcases List.mem_cons.mp hr_f with heq | hr_rest
    · rw [heq] at hre
      rw [hd] at hre
      injection hre with he
      omega
    · have hsf : List.Sorted rowGe ((sortOutflow l).filter (fun r => r.key == k)) :=
        hsorted.filter _
      rw [hhead] at hsf
      have hge : rowGe w r := List.rel_of_sorted_cons hsf r hr_rest
      unfold rowGe resGe at hge
      rw [hd, hre] at hge
      exact hge

def c7rows : List OutRow := [⟨"k", none, 0⟩, ⟨"k", some 5, 0⟩]

/-- Counterexample to C7 as stated: key `"k"` has a row resolved on day 5
and a row with an unparseable resolved date.  The sentinel string sorts
first in the descending sort, so the deduplication records the sentinel for
the key — not the most recent resolved date, day 5. -/
theorem c7_most_recent_counterexample :
    recordedResolved c7rows "k" = some none ∧
      ((⟨"k", some 5, 0⟩ : OutRow) ∈ c7rows ∧ (⟨"k", some 5, 0⟩ : OutRow).key = "k") ∧
      ∀ d : ℤ, recordedResolved c7rows "k" ≠ some (some d) := by
  refine ⟨by decide, by decide, ?_⟩
  intro d h
  rw [show recordedResolved c7rows "k" = some none from by decide] at h
  exact Option.noConfusion (Option.some.inj h)

/-- Witness for C7's amended statement on two dated rows of one key. -/
theorem c7_most_recent_resolution_witness :
    ∃ d : ℤ,
      recordedResolved [⟨"k", some 3, 0⟩, ⟨"k", some 7, 1⟩] "k" = some (some d) ∧
        (∃ r ∈ [(⟨"k", some 3, 0⟩ : OutRow), ⟨"k", some 7, 1⟩], r.key = "k" ∧ r.resolved = some d) ∧
        (∀ r ∈ [(⟨"k", some 3, 0⟩ : OutRow), ⟨"k", some 7, 1⟩], r.key = "k" →
          ∀ e : ℤ, r.resolved = some e → e ≤ d) :=
  c7_most_recent_resolution_amended [⟨"k", some 3, 0⟩, ⟨"k", some 7, 1⟩] "k"
    ⟨⟨"k", some 3, 0⟩, by decide, rfl⟩ (by decide)

/-! ## Claim C8: GDN node enumeration -/

def c8row : ArmtNRow :=
  { childClass := "C", program := "CrossListing", source := "DE", destination := "US" }

/-- The GDN node-membership condition exactly as the claim states it:
branch (a) requires program AmazonGlobal, and branch (b) tests the row's
whole Source field against the deny list. -/
def specGdnNodeC8 (rows : List ArmtNRow) (c : String) : Prop :=
  ∃ r ∈ rows, r.childClass = c ∧
    ((r.program = "AmazonGlobal" ∧ ∃ j ∈ pySplitComma r.source, pyStrip j ∈ GDN_Core) ∨
     (r.program = "CrossListing" ∧
       (∃ kk ∈ pySplitComma r.destination, pyStrip kk ∈ GDN_Cross) ∧
       r.source ∉ GDN_Excluded_Sources))

/-- Counterexample to C8 as stated: a CrossListing row with Source "DE" and
Destination "US".  The code's first inner loop tests the source against the
core list without testing the program, so the child class enters the node
set; the claim's two branches both reject the row (program is not
AmazonGlobal, and "US" is not in the cross list). -/
theorem c8_gdn_node_counterexample :
    gdnNodeMem [c8row] "C" = true ∧ ¬ specGdnNodeC8 [c8row] "C" := by
  constructor
  · decide
  · unfold specGdnNodeC8 c8row
    decide

/-- C8 (amended): a child_class is in the GDN node set iff some grouped ARMT
row with that child_class has a comma-split Source element in the core list
(whatever the program), or has program CrossListing with a comma-split
Destination element in the cross list and some comma-split Source element
outside the deny list. -/
theorem elemFalseIff (l : List String) (a : String) : l.elem a = false ↔ a ∉ l := by
  constructor
  · intro h hm
    have helem := List.elem_iff.mpr hm
    rw [h] at helem
    exact Bool.noConfusion helem
  · intro h
    cases helem : l.elem a
    · rfl
    · exact absurd (List.elem_iff.mp helem) h

theorem c8_gdn_node_membership_amended (rows : List ArmtNRow) (c : String) :
    gdnNodeMem rows c = true ↔
      ∃ r ∈ rows, r.childClass = c ∧
        ((∃ j ∈ pySplitComma r.source, pyStrip j ∈ GDN_Core) ∨
         (r.program = "CrossListing" ∧
           ∃ kk ∈ pySplitComma r.destination, ∃ t ∈ pySplitComma r.source,
             pyStrip kk ∈ GDN_Cross ∧ pyStrip t ∉ GDN_Excluded_Sources)) := by
  unfold gdnNodeMem gdnRowAdds
  simp only [List.any_eq_true, Bool.and_eq_true, Bool.or_eq_true, Bool.not_eq_true',
    beq_iff_eq, List.contains, List.elem_iff, Bool.not_eq_true]
  constructor
  · rintro ⟨r, hr, hc, hcond⟩
    refine ⟨r, hr, hc, ?_⟩
    rcases hcond with ⟨j, hj, hjc⟩ | ⟨hprog, kk, hkk, t, ht, hcross, hexcl⟩
    · exact Or.inl ⟨j, hj, hjc⟩
    · exact Or.inr ⟨hprog, kk, hkk, t, ht, hcross, (elemFalseIff _ _).mp hexcl⟩
  · rintro ⟨r, hr, hc, hcond⟩
    refine ⟨r, hr, hc, ?_⟩
    rcases hcond with ⟨j, hj, hjc⟩ | ⟨hprog, kk, hkk, t, ht, hcross, hexcl⟩
    · exact Or.inl ⟨j, hj, hjc⟩
    · exact Or.inr ⟨hprog, kk, hkk, t, ht, hcross, (elemFalseIff _ _).mpr hexcl⟩

/-! ## Claim C10: JSR flag -/

/-- Counterexample to C10 as stated: a row whose primary Policies cell is
the sentinel and whose secondary cell is "AB_JSR".  The JSR flag is computed
from the primary cell before the column merge, so the finalized row shows
Policies "AB_JSR" (which matches the pattern) with JSR "No". -/
theorem c10_jsr_counterexample :
    ¬ ((cadenceJsrRow "not Found!" "AB_JSR").jsr = "Yes" ↔
        (strHasSub (cadenceJsrRow "not Found!" "AB_JSR").policies "_JSR" ||
          strHasSub (cadenceJsrRow "not Found!" "AB_JSR").policies "-JSR") = true) := by
  decide

/-- C10 (amended): the finalized JSR flag is "Yes" iff the PRIMARY (pre-
merge) Policies cell contains "_JSR" or "-JSR"; after the merge the
displayed Policies column may come from the secondary cell, whose content
the flag does not reflect. -/
theorem c10_jsr_flag_amended (p p2 : String) :
    (cadenceJsrRow p p2).jsr = "Yes" ↔
      (strHasSub p "_JSR" || strHasSub p "-JSR") = true := by
  unfold cadenceJsrRow jsrOf
  split_ifs with h
  · simp [h]
  · simp only [h]
    constructor
    · intro hbad
      exact absurd hbad (by decide)
    · intro hbad
      exact absurd hbad (by simp [h])
